import Mathlib

/-!
Shallow embedding of the VisionLLM trading system's core, translated from
`strategy.py`, `color_detection_tools/unified_color_detector.py` and
`main_with_ib_trading.py`.  Pixel channels are naturals in 0..255; the
floating-point threshold multipliers of the colour rules are encoded by
exact integer scalings (`r > max(g,b) * 1.2` becomes `5*r > 6*max g b`),
and all price arithmetic is over `ℚ`.
-/

namespace VisionLLM

/-! ### Colour classifier (`UnifiedColorDetector.color_rules`) -/

/-- An RGB pixel `(r, g, b)` with channels in 0..255. -/
abbrev Pixel := Nat × Nat × Nat

/-- The colour categories of `color_rules` used by the strategy analyzer. -/
inductive CColor
  | red
  | green
  | fuchsia
  | aqua
deriving DecidableEq, Repr

/-- Maximum of the three channels. -/
def max3 (a b c : Nat) : Nat := max a (max b c)

/-- Minimum of the three channels. -/
def min3 (a b c : Nat) : Nat := min a (min b c)

/-- Absolute difference of two naturals, modelling Python `abs(a - b)` on ints. -/
def natDist (a b : Nat) : Nat := max a b - min a b

/-- The `'red'` rule list: `r > max(g,b)*1.2`, `r > 100`, `g < r*0.6`,
`b < r*0.6`, `r - g > 50`, `max-min > 40`.  The subtraction `r - g` is
evaluated only when the earlier rules (which force `g < r`) hold, so
truncated subtraction is value-equivalent to the source's arithmetic. -/
def isRed (p : Pixel) : Bool :=
  let (r, g, b) := p
  (5 * r > 6 * max g b) && (r > 100) && (5 * g < 3 * r) && (5 * b < 3 * r)
    && (r - g > 50) && (max3 r g b - min3 r g b > 40)

/-- The `'green'` rule list: `g > max(r,b)`, `g > 50`, `g - max(r,b) > 10`,
`max-min > 15`, `g > 80 or (g > r*1.5 and g > b*0.8)`. -/
def isGreen (p : Pixel) : Bool :=
  let (r, g, b) := p
  (g > max r b) && (g > 50) && (g - max r b > 10)
    && (max3 r g b - min3 r g b > 15)
    && ((g > 80) || ((2 * g > 3 * r) && (5 * g > 4 * b)))

/-- The `'fuchsia'` rule list: `r > 150 and b > 150`, `g < min(r,b)*0.7`,
`abs(r-b) < 80`, `max(r,b) > g*1.5`, `max-min > 40`, `r + b > 2*g + 100`. -/
def isFuchsia (p : Pixel) : Bool :=
  let (r, g, b) := p
  (r > 150 && b > 150) && (10 * g < 7 * min r b) && (natDist r b < 80)
    && (2 * max r b > 3 * g) && (max3 r g b - min3 r g b > 40)
    && (r + b > 2 * g + 100)

/-- The `'aqua'` rule list: `b > 100 and g > 100`, `r < min(b,g)*0.6`,
`abs(b-g) < 100`, `min(b,g) > max(b,g)*0.7`, `g > 80`, `b > g*0.8`,
`b + g > 2*r + 80`, `max-min > 30`. -/
def isAqua (p : Pixel) : Bool :=
  let (r, g, b) := p
  (b > 100 && g > 100) && (5 * r < 3 * min b g) && (natDist b g < 100)
    && (10 * min b g > 7 * max b g) && (g > 80) && (5 * b > 4 * g)
    && (b + g > 2 * r + 80) && (max3 b g r - min3 b g r > 30)

/-- Dispatch `all(rule(r,g,b) for rule in color_rules[name])` over the
embedded categories. -/
def colorMatches : CColor → Pixel → Bool
  | .red, p => isRed p
  | .green, p => isGreen p
  | .fuchsia, p => isFuchsia p
  | .aqua, p => isAqua p

/-! ### Images -/

/-- An RGB image as a list of rows of pixels (row-major, like
`rgb_image[y, x]`). -/
abbrev Image := List (List Pixel)

/-- Image height, `rgb_image.shape[0]`. -/
def imgHeight (img : Image) : Nat := img.length

/-- Image width, `rgb_image.shape[1]` (length of the first row). -/
def imgWidth (img : Image) : Nat := (img.headD []).length

/-- Pixel access `rgb_image[y, x]`; out-of-range indices yield a default
black pixel (all callers in the source bounds-check first). -/
def getPixel (img : Image) (x y : Nat) : Pixel :=
  (img.getD y []).getD x (0, 0, 0)

/-! ### Candle locator (`CandleStrategyAnalyzer.detect_candles`) -/

/-- A maximal run of same-coloured columns: the loop state
`{'left', 'right', 'color', 'width'}` of step 2 of `detect_candles`
(`width` is maintained as `right - left + 1`, recovered here by
`Seg.width`). -/
structure Seg where
  left : Nat
  right : Nat
  color : CColor
deriving DecidableEq, Repr

/-- Segment width `right - left + 1`. -/
def Seg.width (s : Seg) : Nat := s.right - s.left + 1

/-- A detected candle dict `{'left','right','center','width','color'}`. -/
structure Candle where
  left : Nat
  right : Nat
  center : Nat
  width : Nat
  color : CColor
deriving DecidableEq, Repr

/-- Build the candle dict from a segment:
`center = (seg['left'] + seg['right']) // 2`. -/
def mkCandle (s : Seg) : Candle :=
  ⟨s.left, s.right, (s.left + s.right) / 2, s.width, s.color⟩

/-- Step 1 of `detect_candles` for one column: scan every `y`, record
whether any pixel is red / green, and prioritize red over green. -/
def columnColor (img : Image) (x : Nat) : Option CColor :=
  let col := (List.range (imgHeight img)).map fun y => getPixel img x y
  if col.any isRed then some .red
  else if col.any isGreen then some .green
  else none

/-- The `x_color_map` list of `(x, color)` pairs over all columns. -/
def xColorMap (img : Image) : List (Nat × CColor) :=
  (List.range (imgWidth img)).filterMap fun x =>
    (columnColor img x).map fun c => (x, c)

/-- Step 2 loop of `detect_candles`: fold the colour map into maximal
segments, carrying the `current_segment` accumulator. -/
def buildSegmentsAux : Option Seg → List (Nat × CColor) → List Seg
  | none, [] => []
  | some s, [] => [s]
  | none, (x, c) :: rest => buildSegmentsAux (some ⟨x, x, c⟩) rest
  | some s, (x, c) :: rest =>
      if s.color = c ∧ x = s.right + 1 then
        buildSegmentsAux (some ⟨s.left, x, s.color⟩) rest
      else
        s :: buildSegmentsAux (some ⟨x, x, c⟩) rest

/-- Collapse the per-column colour sequence into maximal segments. -/
def buildSegments (l : List (Nat × CColor)) : List Seg :=
  buildSegmentsAux none l

/-- One update of the `width_counts` dict
(`width_counts[w] = width_counts.get(w, 0) + 1`), preserving insertion
order like a Python dict. -/
def bumpWidth : List (Nat × Nat) → Nat → List (Nat × Nat)
  | [], w => [(w, 1)]
  | (w0, c0) :: rest, w =>
      if w0 = w then (w0, c0 + 1) :: rest else (w0, c0) :: bumpWidth rest w

/-- The `width_counts` histogram, in first-occurrence order. -/
def countWidths (ws : List Nat) : List (Nat × Nat) :=
  ws.foldl bumpWidth []

/-- Fold for `max(width_counts.items(), key=...)`: keep the current best
unless a strictly larger count appears (Python `max` returns the first
maximal item). -/
def modeAux : Nat × Nat → List (Nat × Nat) → Nat × Nat
  | best, [] => best
  | best, p :: rest => modeAux (if best.2 < p.2 then p else best) rest

/-- The `most_common_width`: first width of maximal count.  The empty case
is unreachable in `detect_candles` (segments are non-empty there). -/
def modeWidth : List (Nat × Nat) → Nat
  | [] => 0
  | p :: rest => (modeAux p rest).1

/-- Step 4 filter: keep segments with `abs(seg['width'] - w) <= tol` as
candles. -/
def filterCandles (segs : List Seg) (w tol : Nat) : List Candle :=
  segs.filterMap fun s =>
    if natDist s.width w ≤ tol then some (mkCandle s) else none

/-- Insert one `(width, count)` pair into a count-descending list, after
every entry with a count `≥` its own (so the fold below is the stable
descending sort `sorted(..., key=count, reverse=True)`). -/
def insertByCount (p : Nat × Nat) : List (Nat × Nat) → List (Nat × Nat)
  | [] => [p]
  | q :: qs => if q.2 < p.2 then p :: q :: qs else q :: insertByCount p qs

/-- The `sorted_widths` list: stable sort by count, descending. -/
def sortCountsDesc (l : List (Nat × Nat)) : List (Nat × Nat) :=
  l.foldl (fun acc p => insertByCount p acc) []

/-- One retry attempt of step 5: filter with the looser tolerance
`max(2, width // 3)`. -/
def retryFilter (segs : List Seg) (w : Nat) : List Candle :=
  filterCandles segs w (max 2 (w / 3))

/-- The step-5 retry loop over `sorted_widths[:3]`: recompute `candles`
for each width, break on the first attempt with `>= 8` candles, and
otherwise fall out of the loop holding the last attempt. -/
def retryLoop (segs : List Seg) : List (Nat × Nat) → List Candle → List Candle
  | [], cands => cands
  | (w, _) :: rest, _ =>
      let c := retryFilter segs w
      if 8 ≤ c.length then c else retryLoop segs rest c

/-- The segment list of an image (steps 1–2 of `detect_candles`). -/
def segmentsOf (img : Image) : List Seg :=
  buildSegments (xColorMap img)

/-- The `width_counts` histogram of an image (step 3). -/
def widthCountsOf (img : Image) : List (Nat × Nat) :=
  countWidths ((segmentsOf img).map Seg.width)

/-- The first-pass candle set: mode width with tolerance
`max(1, mode // 4)` (step 4). -/
def firstPassCandles (img : Image) : List Candle :=
  filterCandles (segmentsOf img) (modeWidth (widthCountsOf img))
    (max 1 (modeWidth (widthCountsOf img) / 4))

/-- The retried widths `sorted_widths[:3]` (step 5). -/
def retryWidths (img : Image) : List (Nat × Nat) :=
  (sortCountsDesc (widthCountsOf img)).take 3

/-- The full `detect_candles` pipeline. -/
def detect_candles (img : Image) : List Candle :=
  if (xColorMap img).isEmpty then []
  else if (segmentsOf img).isEmpty then []
  else if (firstPassCandles img).length < 5 then
    retryLoop (segmentsOf img) (retryWidths img) (firstPassCandles img)
  else firstPassCandles img

/-- Insert a candle into a center-descending list, after every candle with
a center `≥` its own (stable descending sort by center). -/
def insertCandleDesc (c : Candle) : List Candle → List Candle
  | [] => [c]
  | d :: ds => if d.center < c.center then c :: d :: ds else d :: insertCandleDesc c ds

/-- The `sorted(candles, key=center, reverse=True)` list. -/
def sortCandlesDesc (l : List Candle) : List Candle :=
  l.foldl (fun acc c => insertCandleDesc c acc) []

/-- `get_second_rightmost_candle`: `None` with fewer than 2 candles, else
the second entry of the candles sorted by center descending. -/
def get_second_rightmost_candle (cands : List Candle) : Option Candle :=
  if cands.length < 2 then none
  else (sortCandlesDesc cands).get? 1

/-! ### Horizontal-line validation
(`CandleStrategyAnalyzer.detect_color_at_position` and
`validate_horizontal_line`) -/

/-- `detect_color_at_position`: `False` out of bounds, otherwise test the
category's rules at `rgb_image[y, x]`.  Coordinates are naturals, so the
source's `x < 0 or y < 0` branches are vacuous. -/
def detect_color_at_position (img : Image) (c : CColor) (x y : Nat) : Bool :=
  if imgWidth img ≤ x ∨ imgHeight img ≤ y then false
  else colorMatches c (getPixel img x y)

/-- `validate_horizontal_line` with window `pixels_range = n`: bounds-check
`(x, y)`, then require the colour at every pixel exactly `1..n` columns to
the left (`check_x < 0` fails) and to the right (`check_x >= width`
fails). -/
def validate_horizontal_line (img : Image) (c : CColor) (x y n : Nat) : Bool :=
  if imgWidth img ≤ x ∨ imgHeight img ≤ y then false
  else
    ((List.range n).all fun i =>
      decide (i + 1 ≤ x) && detect_color_at_position img c (x - (i + 1)) y) &&
    ((List.range n).all fun i =>
      decide (x + i + 1 < imgWidth img) && detect_color_at_position img c (x + i + 1) y)

/-! ### Signal aggregator (`check_signal_alignment`) -/

/-- An indicator signal, one of `"buy"`, `"sell"`, `"none"`. -/
inductive Signal
  | buy
  | sell
  | none
deriving DecidableEq, Repr, Fintype

/-- `check_signal_alignment(stm, td, zigzag)`: the `(is_aligned,
signal_type, confidence)` triple, with the source's `if/elif` chain. -/
def check_signal_alignment (stm td zigzag : Signal) : Bool × Signal × ℚ :=
  if stm = .buy ∧ td = .buy ∧ zigzag = .buy then (true, .buy, 1)
  else if stm = .sell ∧ td = .sell ∧ zigzag = .sell then (true, .sell, 1)
  else if stm = .buy ∧ zigzag = .buy then (true, .buy, (1/2 : ℚ))
  else if stm = .sell ∧ zigzag = .sell then (true, .sell, (1/2 : ℚ))
  else (false, .none, 0)

/-! ### Fibonacci risk calculator
(`IBTradingManager.calculate_fibonacci_levels`).  The bar-fetching prelude
is factored out: the function below is the level computation given the
recent lookback range `[low, high]` taken from the last bars; the no-data
percentage fallback is `fibLevelsWithBars`. -/

/-- Trade direction, the `signal_type` strings `'buy'` / `'sell'`. -/
inductive Direction
  | buy
  | sell
deriving DecidableEq, Repr

/-- `fib_sl = 0.382 + (1 - confidence) * (0.618 - 0.382)`, with exact rationals. -/
def fibSlFrac (confidence : ℚ) : ℚ := (382/1000 : ℚ) + (1 - confidence) * ((618/1000 : ℚ) - (382/1000 : ℚ))

/-- `fib_tp = 1.382 + confidence * (1.618 - 1.382)`, with exact rationals. -/
def fibTpFrac (confidence : ℚ) : ℚ := (1382/1000 : ℚ) + confidence * ((1618/1000 : ℚ) - (1382/1000 : ℚ))

/-- `risk_long = entry - recent_low`, replaced by the range-based fallback
`max(recent_high - recent_low, entry * 0.005)` when non-positive. -/
def riskLong (entry low high : ℚ) : ℚ :=
  let r := entry - low
  if r ≤ 0 then max (high - low) (entry * (5/1000 : ℚ)) else r

/-- `risk_short = recent_high - entry`, with the same fallback. -/
def riskShort (entry low high : ℚ) : ℚ :=
  let r := high - entry
  if r ≤ 0 then max (high - low) (entry * (5/1000 : ℚ)) else r

/-- The level computation of `calculate_fibonacci_levels` given the recent
range, returning `(take_profit, stop_loss)`, including the directional
sanity guard of each branch. -/
def calculate_fibonacci_levels (dir : Direction) (entry low high conf : ℚ) : ℚ × ℚ :=
  match dir with
  | .buy =>
      let risk := riskLong entry low high
      let sl := entry - risk * fibSlFrac conf * 2
      let tp := entry + risk * fibTpFrac conf
      if tp ≤ entry ∨ sl ≥ entry then
        let sl2 := min low (entry * (995/1000 : ℚ))
        let risk2 := max (entry - sl2) (max (high - low) (entry * (5/1000 : ℚ)))
        (entry + risk2 * fibTpFrac conf, sl2)
      else (tp, sl)
  | .sell =>
      let risk := riskShort entry low high
      let sl := entry + risk * fibSlFrac conf * 2
      let tp := entry - risk * fibTpFrac conf
      if tp ≥ entry ∨ sl ≤ entry then
        let sl2 := max high (entry * (1005/1000 : ℚ))
        let risk2 := max (sl2 - entry) (max (high - low) (entry * (5/1000 : ℚ)))
        (entry - risk2 * fibTpFrac conf, sl2)
      else (tp, sl)

/-- `calculate_fibonacci_levels` including the no-bars percentage fallback
(`1% TP / 0.5% SL`): `range` is `none` when no recent bars are available,
otherwise the `(recent_low, recent_high)` of the last bars. -/
def fibLevelsWithBars (range : Option (ℚ × ℚ)) (dir : Direction) (entry conf : ℚ) : ℚ × ℚ :=
  match range with
  | Option.none =>
      match dir with
      | .buy => (entry * (101/100 : ℚ), entry * (995/1000 : ℚ))
      | .sell => (entry * (99/100 : ℚ), entry * (1005/1000 : ℚ))
  | some (low, high) => calculate_fibonacci_levels dir entry low high conf

/-! ### Position and order lifecycle (`IBTradingManager`) -/

/-- The `position_info` dict stored in `current_positions` (timestamps,
order references and raw signal data are omitted: no embedded claim
observes them). -/
structure Position where
  tradeId : Nat
  symbol : String
  signalType : Direction
  entryPrice : ℚ
  shares : Nat
  takeProfit : ℚ
  stopLoss : ℚ
deriving DecidableEq, Repr

/-- The action of a trade-ledger row. -/
inductive LedgerAction
  | entry
  | exit
deriving DecidableEq, Repr

/-- One appended ledger row (`_log_trade_to_csv` / `_log_trade`), reduced
to the fields the claims observe. -/
structure LedgerRow where
  action : LedgerAction
  tradeId : Nat
  symbol : String
  price : ℚ
  shares : Nat
deriving DecidableEq, Repr

/-- The manager's mutable state: the `current_positions` dict (a stored
`none` models Python's `None` entry, and an absent key is read
identically by `getPosition`), `current_capital`, the appended ledger
rows, and the trade-id counter behind `_generate_trade_id`. -/
structure MgrState where
  currentPositions : List (String × Option Position)
  currentCapital : ℚ
  ledger : List LedgerRow
  nextTradeId : Nat
deriving DecidableEq, Repr

/-- Dict read combining `symbol not in current_positions` with
`current_positions[symbol] is None`: both are the Flat state. -/
def getPosition (st : MgrState) (symbol : String) : Option Position :=
  match st.currentPositions.lookup symbol with
  | Option.none => Option.none
  | some p => p

/-- Dict assignment `current_positions[symbol] = v`. -/
def updateAssoc : List (String × Option Position) → String → Option Position →
    List (String × Option Position)
  | [], s, v => [(s, v)]
  | (k, w) :: rest, s, v =>
      if k = s then (s, v) :: rest else (k, w) :: updateAssoc rest s v

/-- The broker-facing environment of one lifecycle call: the global price
cache (`GLOBAL_PRICE_CACHE`), the outcome of `ib.place_order` (`.error`
models a raised exception, `.ok` the returned order id), the outcome of
`ib.wait_for_fill` (`none` models a timeout, `some p` a fill at average
price `p`), and the recent-bar range used by the Fibonacci levels. -/
structure BrokerEnv where
  priceCache : List (String × ℚ)
  submitResult : Except Unit Nat
  fillResult : Option ℚ
  recentRange : Option (ℚ × ℚ)
deriving Repr

/-- `get_current_price`: `None` when the cache has no entry or the cached
value is non-positive, otherwise the cached value. -/
def get_current_price (cache : List (String × ℚ)) (symbol : String) : Option ℚ :=
  match cache.lookup symbol with
  | Option.none => Option.none
  | some p => if p ≤ 0 then Option.none else some p

/-- `calculate_position_size`: `max(1, int(current_capital * 0.1 /
entry_price))` (Python `int` truncation and `floor` agree on the
non-negative quotients reached under `max 1`). -/
def calculate_position_size (capital entryPrice : ℚ) : Nat :=
  max 1 (capital * (1/10 : ℚ) / entryPrice).floor.toNat

/-- `place_order(symbol, signal_type, entry_price, _, confidence)`:
submission failure aborts with `False` and no state change; otherwise the
fill (or the reference price on timeout) fixes the stored entry price, the
Fibonacci levels are computed from the actual entry, the position is
stored, capital is reduced by `shares * entry_price * 0.1` (the reference
price), and an ENTRY row is appended.  Market/limit order construction has
no effect on the manager state and is not modelled. -/
def place_order (env : BrokerEnv) (st : MgrState) (symbol : String)
    (dir : Direction) (entryPrice conf : ℚ) : Bool × MgrState :=
  let shares := calculate_position_size st.currentCapital entryPrice
  match env.submitResult with
  | .error _ => (false, st)
  | .ok _ =>
      let actualEntry := env.fillResult.getD entryPrice
      let levels := fibLevelsWithBars env.recentRange dir actualEntry conf
      let tradeId := st.nextTradeId
      let pos : Position :=
        ⟨tradeId, symbol, dir, actualEntry, shares, levels.1, levels.2⟩
      (true,
        { currentPositions := updateAssoc st.currentPositions symbol (some pos)
          currentCapital := st.currentCapital - shares * entryPrice * (1/10 : ℚ)
          ledger := st.ledger ++ [⟨.entry, tradeId, symbol, actualEntry, shares⟩]
          nextTradeId := st.nextTradeId + 1 })

/-- `close_position(symbol, reason)`: a no-op when the symbol is Flat;
a no-op when no cached price is available; a no-op when the closing
submission raises; otherwise the position entry is set to `None`, capital
is increased by `shares * current_price * 0.1` (the cached price, not the
exit fill), and an EXIT row is appended at the actual exit price (the
cached price on fill timeout). -/
def close_position (env : BrokerEnv) (st : MgrState) (symbol : String) : MgrState :=
  match getPosition st symbol with
  | Option.none => st
  | some pos =>
      match get_current_price env.priceCache symbol with
      | Option.none => st
      | some currentPrice =>
          match env.submitResult with
          | .error _ => st
          | .ok _ =>
              let actualExit := env.fillResult.getD currentPrice
              { currentPositions := updateAssoc st.currentPositions symbol Option.none
                currentCapital := st.currentCapital + pos.shares * currentPrice * (1/10 : ℚ)
                ledger := st.ledger ++ [⟨.exit, pos.tradeId, symbol, actualExit, pos.shares⟩]
                nextTradeId := st.nextTradeId }

/-! ### Concrete fixtures used by witnesses and counterexamples -/

/-- A pixel matching the `'red'` rules and no other embedded category. -/
def redPx : Pixel := (200, 0, 0)

/-- A pixel matching the `'green'` rules and no other embedded category. -/
def greenPx : Pixel := (0, 200, 0)

/-- A background pixel matching no embedded category. -/
def blackPx : Pixel := (0, 0, 0)

/-- Single row with red runs of widths 3, 3, 3, 3, 5, 5, 5, 1, 1, 1
separated by background columns. -/
def rowA : List Pixel :=
  List.replicate 3 redPx ++ [blackPx] ++ List.replicate 3 redPx ++ [blackPx] ++
  List.replicate 3 redPx ++ [blackPx] ++ List.replicate 3 redPx ++ [blackPx] ++
  List.replicate 5 redPx ++ [blackPx] ++ List.replicate 5 redPx ++ [blackPx] ++
  List.replicate 5 redPx ++ [blackPx] ++ List.replicate 1 redPx ++ [blackPx] ++
  List.replicate 1 redPx ++ [blackPx] ++ List.replicate 1 redPx

/-- One-row image whose segment widths are 3 (×4, the mode), 5 (×3) and
1 (×3): its first candle pass finds only 4 candles, triggering the retry. -/
def imgA : Image := [rowA]

/-- Single row with red runs at `x = 10..17` and `x = 30..37` and a green
run at `x = 50..57`, all of width 8. -/
def rowC5 : List Pixel :=
  List.replicate 10 blackPx ++ List.replicate 8 redPx ++
  List.replicate 12 blackPx ++ List.replicate 8 redPx ++
  List.replicate 12 blackPx ++ List.replicate 8 greenPx

/-- One-row image realising the two-red-one-green candle scenario. -/
def imgC5 : Image := [rowC5]

/-- The column colour map of `imgC5`: three width-8 runs. -/
def xcmC5 : List (Nat × CColor) :=
  ((List.range 8).map fun i => (10 + i, CColor.red)) ++
  ((List.range 8).map fun i => (30 + i, CColor.red)) ++
  ((List.range 8).map fun i => (50 + i, CColor.green))

/-- A stored open position used by lifecycle witnesses. -/
def posW : Position := ⟨1, "AAPL", .buy, 100, 2, 110, 95⟩

/-- A manager state with no position stored for any symbol. -/
def stFlat : MgrState := ⟨[], 1000, [], 0⟩

/-- A manager state holding `posW` open for `"AAPL"`. -/
def stOpen : MgrState := ⟨[("AAPL", some posW)], 1000, [], 2⟩

/-- A broker environment whose cached `"AAPL"` price is non-positive. -/
def envStale : BrokerEnv := ⟨[("AAPL", -1)], .ok 7, Option.none, Option.none⟩

/-- A broker environment whose order submission raises. -/
def envErr : BrokerEnv := ⟨[], .error (), Option.none, Option.none⟩

/-- A broker environment for a successful entry: submission succeeds and
the order fills at 101, away from the reference price. -/
def envEntry : BrokerEnv := ⟨[], .ok 1, some 101, some (95, 110)⟩

/-- A broker environment for a successful exit: the cached price is 50 and
the fill wait times out. -/
def envExit : BrokerEnv := ⟨[("AAPL", 50)], .ok 2, Option.none, Option.none⟩

/-- A second stored open position, for a different symbol. -/
def posW2 : Position := ⟨2, "MSFT", .sell, 50, 3, 45, 55⟩

/-- A manager state holding `posW2` open for `"MSFT"`. -/
def stOpen2 : MgrState := ⟨[("MSFT", some posW2)], 500, [], 3⟩

/-- A broker environment whose cached `"MSFT"` price is negative. -/
def envStale2 : BrokerEnv := ⟨[("MSFT", -2)], .ok 9, Option.none, Option.none⟩

/-! ## Theorems -/

/-- Helper: the stop-loss fraction is positive whenever `conf ≤ 1`. -/
theorem fibSlFrac_pos {conf : ℚ} (h : conf ≤ 1) : 0 < fibSlFrac conf := by
  unfold fibSlFrac; nlinarith

/-- Helper: the take-profit fraction is positive whenever `0 ≤ conf`. -/
theorem fibTpFrac_pos {conf : ℚ} (h : 0 ≤ conf) : 0 < fibTpFrac conf := by
  unfold fibTpFrac; nlinarith

/-- Helper: the long risk is positive whenever the entry price is: either
`entry - low` is positive, or the fallback is at least `0.005 * entry`. -/
theorem riskLong_pos (entry low high : ℚ) (h : 0 < entry) :
    0 < riskLong entry low high := by
  unfold riskLong
  by_cases hr : entry - low ≤ 0
  · rw [if_pos hr]
    exact lt_of_lt_of_le (by positivity) (le_max_right _ _)
  · rw [if_neg hr]; push_neg at hr; linarith

/-- Helper: the short risk is positive whenever the entry price is. -/
theorem riskShort_pos (entry low high : ℚ) (h : 0 < entry) :
    0 < riskShort entry low high := by
  unfold riskShort
  by_cases hr : high - entry ≤ 0
  · rw [if_pos hr]
    exact lt_of_lt_of_le (by positivity) (le_max_right _ _)
  · rw [if_neg hr]; push_neg at hr; linarith

/-- C1 (amended): for every positive entry price, recent range, confidence
in `[0,1]` and either direction, the `(take_profit, stop_loss)` pair of
`calculate_fibonacci_levels` satisfies the directional sanity condition:
for a buy `tp > entry > sl`, for a sell `sl > entry > tp` — including when
the entry lies outside `[low, high]`.  (In that case it is the range-based
risk fallback, not the guard clamp, that keeps the levels on the correct
sides; the proof shows the guard condition is never reached.) -/
theorem fib_directional_sanity (entry low high conf : ℚ)
    (hentry : 0 < entry) (hc0 : 0 ≤ conf) (hc1 : conf ≤ 1) :
    ((calculate_fibonacci_levels .buy entry low high conf).2 < entry ∧
      entry < (calculate_fibonacci_levels .buy entry low high conf).1) ∧
    (entry < (calculate_fibonacci_levels .sell entry low high conf).2 ∧
      (calculate_fibonacci_levels .sell entry low high conf).1 < entry) := by
  have hsl := fibSlFrac_pos hc1
  have htp := fibTpFrac_pos hc0
  constructor
  · have hr := riskLong_pos entry low high hentry
    have h1 : entry < entry + riskLong entry low high * fibTpFrac conf := by nlinarith
    have h2 : entry - riskLong entry low high * fibSlFrac conf * 2 < entry := by nlinarith
    simp only [calculate_fibonacci_levels]
    rw [if_neg (by push_neg; exact ⟨h1, h2⟩)]
    exact ⟨h2, h1⟩
  · have hr := riskShort_pos entry low high hentry
    have h1 : entry - riskShort entry low high * fibTpFrac conf < entry := by nlinarith
    have h2 : entry < entry + riskShort entry low high * fibSlFrac conf * 2 := by nlinarith
    simp only [calculate_fibonacci_levels]
    rw [if_neg (by push_neg; exact ⟨h1, h2⟩)]
    exact ⟨h2, h1⟩

/-- C1 witness: the amended theorem applied at the out-of-range input
`entry = 90 < low = 95`, `high = 110`, `confidence = 1`. -/
theorem fib_directional_sanity_witness :
    (((calculate_fibonacci_levels .buy 90 95 110 1).2 < 90 ∧
      (90:ℚ) < (calculate_fibonacci_levels .buy 90 95 110 1).1) ∧
    ((90:ℚ) < (calculate_fibonacci_levels .sell 90 95 110 1).2 ∧
      (calculate_fibonacci_levels .sell 90 95 110 1).1 < 90)) :=
  fib_directional_sanity 90 95 110 1 (by decide) (by decide) (by decide)

/-- C1 counterexample: with `entry = 90` below the range `[95, 110]`
(a buy, confidence 1), the returned stop-loss is `78.54`, which is neither
the recent extreme `95` nor the guard's clamp value
`min(recent_low, entry*0.995) = 89.55`: the raw risk is non-positive, the
range-based fallback (not the guard clamp) produces the levels, so the
claim's "the guard clamps stop_loss to the recent extreme and recomputes
take_profit from the corrected risk" is false in exactly the case it
describes. -/
theorem fib_guard_counterexample :
    (90:ℚ) < 95 ∧
    calculate_fibonacci_levels .buy 90 95 110 1 = (11427/100, 7854/100) ∧
    ((7854:ℚ)/100) ≠ 95 ∧
    ((7854:ℚ)/100) ≠ min 95 (90 * (995/1000 : ℚ)) := by
  refine ⟨by norm_num, ?_, by norm_num, ?_⟩
  · norm_num [calculate_fibonacci_levels, riskLong, fibSlFrac, fibTpFrac]
  · rw [show min (95:ℚ) (90 * (995/1000 : ℚ)) = 1791/20 by norm_num [min_def]]
    norm_num

/-- C2: `check_signal_alignment` returns aligned with confidence 1 exactly
when all three signals agree on buy or all agree on sell; returns aligned
with confidence 0.5 when STM and Zigzag agree on a non-none direction and
TD does not complete the three-way agreement; and returns
`(False, "none", 0)` for every other combination. -/
theorem check_signal_alignment_spec : ∀ s t z : Signal,
    (((check_signal_alignment s t z).1 = true ∧ (check_signal_alignment s t z).2.2 = 1) ↔
      ((s = .buy ∧ t = .buy ∧ z = .buy) ∨ (s = .sell ∧ t = .sell ∧ z = .sell))) ∧
    (s = z → s ≠ Signal.none → t ≠ s → check_signal_alignment s t z = (true, s, 1/2)) ∧
    ((s ≠ z ∨ s = Signal.none) → check_signal_alignment s t z = (false, Signal.none, 0)) := by
  intro s t z
  cases s <;> cases t <;> cases z <;> simp [check_signal_alignment]

/-- C2 witness: STM buy, TD sell, Zigzag buy aligns at confidence 0.5. -/
theorem check_signal_alignment_spec_witness :
    check_signal_alignment .buy .sell .buy = (true, .buy, 1/2) :=
  (check_signal_alignment_spec .buy .sell .buy).2.1 rfl (by decide) (by decide)

/-- Helper: a carried segment is always flushed by the fold. -/
theorem buildSegmentsAux_some_ne_nil (s : Seg) (l : List (Nat × CColor)) :
    buildSegmentsAux (some s) l ≠ [] := by
  induction l generalizing s with
  | nil => simp [buildSegmentsAux]
  | cons p rest ih =>
    obtain ⟨px, pc⟩ := p
    unfold buildSegmentsAux
    by_cases h : s.color = pc ∧ px = s.right + 1
    · rw [if_pos h]
      exact ih _
    · rw [if_neg h]
      simp

/-- Helper: the segments of a non-empty colour map form a non-empty list. -/
theorem buildSegments_ne_nil {l : List (Nat × CColor)} (h : l ≠ []) :
    buildSegments l ≠ [] := by
  cases l with
  | nil => exact absurd rfl h
  | cons p rest =>
    obtain ⟨px, pc⟩ := p
    exact buildSegmentsAux_some_ne_nil ⟨px, px, pc⟩ rest

/-- Helper: a histogram bump never empties the histogram. -/
theorem bumpWidth_ne_nil (l : List (Nat × Nat)) (w : Nat) : bumpWidth l w ≠ [] := by
  cases l with
  | nil => simp [bumpWidth]
  | cons p rest =>
    obtain ⟨w0, c0⟩ := p
    unfold bumpWidth
    by_cases h : w0 = w
    · rw [if_pos h]
      simp
    · rw [if_neg h]
      simp

/-- Helper: folding histogram bumps preserves non-emptiness. -/
theorem foldl_bumpWidth_ne_nil (ws : List Nat) (acc : List (Nat × Nat)) (h : acc ≠ []) :
    ws.foldl bumpWidth acc ≠ [] := by
  induction ws generalizing acc with
  | nil => simpa
  | cons w rest ih =>
    rw [List.foldl_cons]
    exact ih _ (bumpWidth_ne_nil _ _)

/-- Helper: the width histogram of a non-empty width list is non-empty. -/
theorem countWidths_ne_nil {ws : List Nat} (h : ws ≠ []) : countWidths ws ≠ [] := by
  cases ws with
  | nil => exact absurd rfl h
  | cons w rest =>
    unfold countWidths
    rw [List.foldl_cons]
    exact foldl_bumpWidth_ne_nil rest _ (bumpWidth_ne_nil _ _)

/-- Helper: an insertion never yields the empty list. -/
theorem insertByCount_ne_nil (p : Nat × Nat) (l : List (Nat × Nat)) :
    insertByCount p l ≠ [] := by
  cases l with
  | nil => simp [insertByCount]
  | cons q qs =>
    unfold insertByCount
    by_cases h : q.2 < p.2
    · rw [if_pos h]
      simp
    · rw [if_neg h]
      simp

/-- Helper: folding insertions preserves non-emptiness. -/
theorem foldl_insertByCount_ne_nil (l : List (Nat × Nat)) (acc : List (Nat × Nat))
    (h : acc ≠ []) : l.foldl (fun acc p => insertByCount p acc) acc ≠ [] := by
  induction l generalizing acc with
  | nil => simpa
  | cons p rest ih =>
    rw [List.foldl_cons]
    exact ih _ (insertByCount_ne_nil _ _)

/-- Helper: sorting a non-empty histogram yields a non-empty list. -/
theorem sortCountsDesc_ne_nil {l : List (Nat × Nat)} (h : l ≠ []) :
    sortCountsDesc l ≠ [] := by
  cases l with
  | nil => exact absurd rfl h
  | cons p rest =>
    unfold sortCountsDesc
    rw [List.foldl_cons]
    exact foldl_insertByCount_ne_nil rest _ (insertByCount_ne_nil _ _)

/-- Helper: the retried width list is non-empty once segments exist. -/
theorem retryWidths_ne_nil {img : Image} (h : segmentsOf img ≠ []) :
    retryWidths img ≠ [] := by
  unfold retryWidths
  have hw : widthCountsOf img ≠ [] := by
    unfold widthCountsOf
    apply countWidths_ne_nil
    intro hm
    exact h (List.map_eq_nil_iff.mp hm)
  have hs := sortCountsDesc_ne_nil hw
  cases hsort : sortCountsDesc (widthCountsOf img) with
  | nil => exact absurd hsort hs
  | cons p rest => simp [hsort, List.take]

/-- Helper: the retry loop returns the first attempt reaching 8 candles
and otherwise falls out of the loop holding the last attempt. -/
theorem retryLoop_eq_find (segs : List Seg) (ws : List (Nat × Nat)) (cands : List Candle)
    (h : ws ≠ []) :
    retryLoop segs ws cands =
      match ws.find? (fun p => 8 ≤ (retryFilter segs p.1).length) with
      | some p => retryFilter segs p.1
      | Option.none => retryFilter segs ((ws.getLast?.getD (0, 0)).1) := by
  induction ws generalizing cands with
  | nil => exact absurd rfl h
  | cons p rest ih =>
    obtain ⟨w, cnt⟩ := p
    rw [retryLoop]
    by_cases h8 : 8 ≤ (retryFilter segs w).length
    · rw [if_pos h8, List.find?_cons_of_pos _ (by simpa using h8)]
    · rw [if_neg h8]
      cases rest with
      | nil =>
        rw [retryLoop, List.find?_cons_of_neg _ (by simpa using h8), List.find?_nil]
        simp [List.getLast?]
      | cons q rest2 =>
        rw [List.find?_cons_of_neg _ (by simpa using h8), List.getLast?_cons_cons]
        exact ih _ (by simp)

/-- C3 (amended): for every image whose first-pass candle filter yields
fewer than 5 candles, `detect_candles` retries the top three most frequent
segment widths — the mode itself first, then the next two — each under the
looser tolerance `max(2, width // 3)`; it returns the candle set of the
first retried width that yields at least 8 candles, and if no retried
width yields at least 8 candles it keeps the last attempt (the third most
frequent width's candle set). -/
theorem detect_candles_retry_policy (img : Image)
    (h1 : xColorMap img ≠ []) (h2 : (firstPassCandles img).length < 5) :
    detect_candles img =
      match (retryWidths img).find?
          (fun p => 8 ≤ (retryFilter (segmentsOf img) p.1).length) with
      | some p => retryFilter (segmentsOf img) p.1
      | Option.none =>
          retryFilter (segmentsOf img) (((retryWidths img).getLast?.getD (0, 0)).1) := by
  have hsegs : segmentsOf img ≠ [] := buildSegments_ne_nil h1
  unfold detect_candles
  rw [if_neg (by simpa using h1), if_neg (by simpa using hsegs), if_pos h2]
  exact retryLoop_eq_find _ _ _ (retryWidths_ne_nil hsegs)

/-- C3 witness: the amended retry characterisation applied to `imgA`,
whose first pass finds only 4 candles. -/
theorem detect_candles_retry_policy_witness :
    detect_candles imgA =
      match (retryWidths imgA).find?
          (fun p => 8 ≤ (retryFilter (segmentsOf imgA) p.1).length) with
      | some p => retryFilter (segmentsOf imgA) p.1
      | Option.none =>
          retryFilter (segmentsOf imgA) (((retryWidths imgA).getLast?.getD (0, 0)).1) :=
  detect_candles_retry_policy imgA (by decide) (by decide)

/-- C3 counterexample: on `imgA` the first pass finds 4 candles (< 5, so
the retry premise holds) and the width histogram sorts to
`[(3,4), (5,3), (1,3)]`, so the "next two most frequent widths" are 5 and
1; both yield only 7 candles under the looser tolerance, yet
`detect_candles` returns 10 candles (distinct from either retried set and
larger than any attempt among them), because the code also retries the
mode width 3 itself, which the claim excludes. -/
theorem detect_candles_retry_counterexample :
    (firstPassCandles imgA).length = 4 ∧
    sortCountsDesc (widthCountsOf imgA) = [(3, 4), (5, 3), (1, 3)] ∧
    (retryFilter (segmentsOf imgA) 5).length = 7 ∧
    (retryFilter (segmentsOf imgA) 1).length = 7 ∧
    (detect_candles imgA).length = 10 ∧
    detect_candles imgA ≠ retryFilter (segmentsOf imgA) 5 ∧
    detect_candles imgA ≠ retryFilter (segmentsOf imgA) 1 := by
  decide

/-- C4: with entry 100, direction buy, lookback low 95 and high 110 and
confidence 1, the risk is 5, the stop fraction 0.382, the target fraction
1.618, and `calculate_fibonacci_levels` returns take-profit
`100 + 5*1.618 = 108.09` and stop-loss `100 - 5*0.382*2 = 96.18`. -/
theorem fib_scenario_100 :
    riskLong 100 95 110 = 5 ∧ fibSlFrac 1 = 382/1000 ∧ fibTpFrac 1 = 1618/1000 ∧
    calculate_fibonacci_levels .buy 100 95 110 1 = (10809/100, 9618/100) := by
  refine ⟨by norm_num [riskLong], by norm_num [fibSlFrac], by norm_num [fibTpFrac], ?_⟩
  norm_num [calculate_fibonacci_levels, riskLong, fibSlFrac, fibTpFrac]

/-- C5: on an image whose red/green columns form exactly two width-8 red
runs at `x = 10..17` and `x = 30..37` and one width-8 green run at
`x = 50..57`, `detect_candles` returns exactly those 3 candles, and
`get_second_rightmost_candle` returns the `x = 30..37` segment with centre
`(30 + 37) // 2 = 33`. -/
theorem detect_candles_scenario (img : Image) (h : xColorMap img = xcmC5) :
    detect_candles img =
      [⟨10, 17, 13, 8, .red⟩, ⟨30, 37, 33, 8, .red⟩, ⟨50, 57, 53, 8, .green⟩] ∧
    get_second_rightmost_candle (detect_candles img) = some ⟨30, 37, 33, 8, .red⟩ := by
  have hd : detect_candles img
      = [⟨10, 17, 13, 8, .red⟩, ⟨30, 37, 33, 8, .red⟩, ⟨50, 57, 53, 8, .green⟩] := by
    unfold detect_candles firstPassCandles retryWidths widthCountsOf segmentsOf
    rw [h]
    decide
  refine ⟨hd, ?_⟩
  rw [hd]
  decide

/-- C5 witness: the scenario realised on the concrete image `imgC5`. -/
theorem detect_candles_scenario_witness :
    detect_candles imgC5 =
      [⟨10, 17, 13, 8, .red⟩, ⟨30, 37, 33, 8, .red⟩, ⟨50, 57, 53, 8, .green⟩] ∧
    get_second_rightmost_candle (detect_candles imgC5) = some ⟨30, 37, 33, 8, .red⟩ :=
  detect_candles_scenario imgC5 (by decide)

/-- C6: `close_position` is a no-op (identical state: no ledger row, no
position change, no capital change) when the symbol is Flat, and likewise
returns with the position still open and no ledger row when the symbol is
open but no usable cached price exists; both hold for every broker
environment, so no order is submitted in either case. -/
theorem close_position_noop (env : BrokerEnv) (st : MgrState) (symbol : String) :
    (getPosition st symbol = Option.none → close_position env st symbol = st) ∧
    (getPosition st symbol ≠ Option.none →
      get_current_price env.priceCache symbol = Option.none →
      close_position env st symbol = st) := by
  constructor
  · intro h
    unfold close_position
    rw [h]
  · intro h1 h2
    unfold close_position
    cases hp : getPosition st symbol with
    | none => exact absurd hp h1
    | some pos => rw [h2]

/-- C6 witness: a Flat state, and an open state with a non-positive cached
price, are both left untouched. -/
theorem close_position_noop_witness :
    close_position envStale stFlat "AAPL" = stFlat ∧
    close_position envStale stOpen "AAPL" = stOpen :=
  ⟨(close_position_noop envStale stFlat "AAPL").1 rfl,
   (close_position_noop envStale stOpen "AAPL").2 (by decide) (by decide)⟩

/-- C7: if the broker's order submission raises during `place_order`, the
attempted Flat → Open transition is abandoned atomically: the call returns
failure with the manager state (positions, capital, ledger) unchanged. -/
theorem place_order_submit_error (env : BrokerEnv) (st : MgrState) (symbol : String)
    (dir : Direction) (entryPrice conf : ℚ)
    (h : env.submitResult = Except.error ()) :
    place_order env st symbol dir entryPrice conf = (false, st) := by
  unfold place_order
  rw [h]

/-- C7 witness: a failing submission leaves the Flat state untouched. -/
theorem place_order_submit_error_witness :
    place_order envErr stFlat "AAPL" .buy 100 1 = (false, stFlat) :=
  place_order_submit_error envErr stFlat "AAPL" .buy 100 1 rfl

/-- Helper: a true colour probe means the probed pixel is in bounds and
matches the category. -/
theorem detect_color_true {img : Image} {c : CColor} {x y : Nat}
    (h : detect_color_at_position img c x y = true) :
    colorMatches c (getPixel img x y) = true ∧ x < imgWidth img ∧ y < imgHeight img := by
  unfold detect_color_at_position at h
  by_cases hb : imgWidth img ≤ x ∨ imgHeight img ≤ y
  · rw [if_pos hb] at h
    exact absurd h (by simp)
  · rw [if_neg hb] at h
    push_neg at hb
    exact ⟨h, hb.1, hb.2⟩

/-- C8: a validation window that runs off either image edge
(`x < n` or `x + n ≥ width`) is never validated, and a validated hit
guarantees the colour category holds at every pixel exactly `1..n` columns
to the left and to the right in the same row. -/
theorem validate_horizontal_line_spec (img : Image) (c : CColor) (x y n : Nat) :
    ((x < n ∨ imgWidth img ≤ x + n) → validate_horizontal_line img c x y n = false) ∧
    (validate_horizontal_line img c x y n = true →
      n ≤ x ∧ x + n < imgWidth img ∧
      ∀ dx, 1 ≤ dx → dx ≤ n →
        colorMatches c (getPixel img (x - dx) y) = true ∧
        colorMatches c (getPixel img (x + dx) y) = true) := by
  constructor
  · intro hedge
    unfold validate_horizontal_line
    by_cases hb : imgWidth img ≤ x ∨ imgHeight img ≤ y
    · rw [if_pos hb]
    · rw [if_neg hb]
      push_neg at hb
      rcases hedge with hx | hw
      · have hleft : ((List.range n).all fun i =>
            decide (i + 1 ≤ x) && detect_color_at_position img c (x - (i + 1)) y) = false := by
          cases hall : ((List.range n).all fun i =>
              decide (i + 1 ≤ x) && detect_color_at_position img c (x - (i + 1)) y) with
          | false => rfl
          | true =>
            exfalso
            have hx1 : (decide (x + 1 ≤ x)
                && detect_color_at_position img c (x - (x + 1)) y) = true :=
              List.all_eq_true.mp hall x (List.mem_range.mpr hx)
            have := of_decide_eq_true (Bool.and_eq_true_iff.mp hx1).1
            omega
        rw [hleft, Bool.false_and]
      · have hn : 1 ≤ n := by omega
        have hright : ((List.range n).all fun i =>
            decide (x + i + 1 < imgWidth img)
              && detect_color_at_position img c (x + i + 1) y) = false := by
          cases hall : ((List.range n).all fun i =>
              decide (x + i + 1 < imgWidth img)
                && detect_color_at_position img c (x + i + 1) y) with
          | false => rfl
          | true =>
            exfalso
            have hx1 : (decide (x + (n - 1) + 1 < imgWidth img)
                && detect_color_at_position img c (x + (n - 1) + 1) y) = true :=
              List.all_eq_true.mp hall (n - 1) (List.mem_range.mpr (by omega))
            have := of_decide_eq_true (Bool.and_eq_true_iff.mp hx1).1
            omega
        rw [hright, Bool.and_false]
  · intro hv
    unfold validate_horizontal_line at hv
    by_cases hb : imgWidth img ≤ x ∨ imgHeight img ≤ y
    · rw [if_pos hb] at hv
      exact absurd hv (by simp)
    · rw [if_neg hb] at hv
      push_neg at hb
      obtain ⟨hleft, hright⟩ := Bool.and_eq_true_iff.mp hv
      have hl := List.all_eq_true.mp hleft
      have hr := List.all_eq_true.mp hright
      have hnx : n ≤ x := by
        by_contra hc
        push_neg at hc
        have h1 : (decide (x + 1 ≤ x)
            && detect_color_at_position img c (x - (x + 1)) y) = true :=
          hl x (List.mem_range.mpr hc)
        have := of_decide_eq_true (Bool.and_eq_true_iff.mp h1).1
        omega
      have hxw : x + n < imgWidth img := by
        rcases Nat.eq_zero_or_pos n with h0 | h0
        · omega
        · have h1 : (decide (x + (n - 1) + 1 < imgWidth img)
              && detect_color_at_position img c (x + (n - 1) + 1) y) = true :=
            hr (n - 1) (List.mem_range.mpr (by omega))
          have := of_decide_eq_true (Bool.and_eq_true_iff.mp h1).1
          omega
      refine ⟨hnx, hxw, ?_⟩
      intro dx h1 h2
      have hmem : dx - 1 ∈ List.range n := List.mem_range.mpr (by omega)
      have hL : (decide (dx - 1 + 1 ≤ x)
          && detect_color_at_position img c (x - (dx - 1 + 1)) y) = true := hl (dx - 1) hmem
      have hR : (decide (x + (dx - 1) + 1 < imgWidth img)
          && detect_color_at_position img c (x + (dx - 1) + 1) y) = true := hr (dx - 1) hmem
      rw [show dx - 1 + 1 = dx from by omega] at hL
      rw [show x + (dx - 1) + 1 = x + dx from by omega] at hR
      exact ⟨(detect_color_true (Bool.and_eq_true_iff.mp hL).2).1,
        (detect_color_true (Bool.and_eq_true_iff.mp hR).2).1⟩

/-- C8 witness: a 45-wide window centred 5 columns from the left edge of
`imgC5` (`x = 0 < n = 5`) is rejected. -/
theorem validate_horizontal_line_spec_witness :
    validate_horizontal_line imgC5 .red 0 0 5 = false :=
  (validate_horizontal_line_spec imgC5 .red 0 0 5).1 (Or.inl (by decide))

/-- Helper: reading back the key just written by a dict assignment. -/
theorem lookup_updateAssoc (l : List (String × Option Position)) (s : String)
    (v : Option Position) : (updateAssoc l s v).lookup s = some v := by
  induction l with
  | nil => simp [updateAssoc]
  | cons kv rest ih =>
    obtain ⟨k, w⟩ := kv
    by_cases hk : k = s
    · simp [updateAssoc, hk]
    · have hne : (s == k) = false := beq_eq_false_iff_ne.mpr fun hs => hk hs.symm
      simp only [updateAssoc, if_neg hk, List.lookup, hne]
      exact ih

/-- Helper: the computed share count is at least one. -/
theorem calculate_position_size_pos (capital entryPrice : ℚ) :
    0 < calculate_position_size capital entryPrice :=
  lt_of_lt_of_le one_pos (le_max_left _ _)

/-- Helper: reading a freshly assigned position back out of the state. -/
theorem getPosition_updateAssoc (l : List (String × Option Position)) (cap : ℚ)
    (led : List LedgerRow) (nid : Nat) (s : String) (v : Option Position) :
    getPosition ⟨updateAssoc l s v, cap, led, nid⟩ s = v := by
  unfold getPosition
  rw [show MgrState.currentPositions ⟨updateAssoc l s v, cap, led, nid⟩
      = updateAssoc l s v from rfl]
  rw [lookup_updateAssoc]

/-- Helper: capital after a successful entry is reduced by
`shares * entry_price * 0.1` computed from the reference price, whatever
the fill price was. -/
theorem place_order_ok_capital (env : BrokerEnv) (st : MgrState) (symbol : String)
    (dir : Direction) (entryPrice conf : ℚ) (o : Nat)
    (h : env.submitResult = Except.ok o) :
    (place_order env st symbol dir entryPrice conf).2.currentCapital
      = st.currentCapital
        - (calculate_position_size st.currentCapital entryPrice : ℚ) * entryPrice * (1/10) := by
  unfold place_order
  rw [h]

/-- Helper: a successful entry stores a position with the computed share
count under the symbol. -/
theorem place_order_ok_position (env : BrokerEnv) (st : MgrState) (symbol : String)
    (dir : Direction) (entryPrice conf : ℚ) (o : Nat)
    (h : env.submitResult = Except.ok o) :
    ∃ pos : Position,
      getPosition (place_order env st symbol dir entryPrice conf).2 symbol = some pos ∧
      pos.shares = calculate_position_size st.currentCapital entryPrice := by
  unfold place_order
  rw [h]
  exact ⟨_, getPosition_updateAssoc st.currentPositions
      (st.currentCapital
        - (calculate_position_size st.currentCapital entryPrice : ℚ) * entryPrice * (1/10))
      (st.ledger ++ [⟨.entry, st.nextTradeId, symbol, env.fillResult.getD entryPrice,
        calculate_position_size st.currentCapital entryPrice⟩])
      (st.nextTradeId + 1) symbol
      (some ⟨st.nextTradeId, symbol, dir, env.fillResult.getD entryPrice,
        calculate_position_size st.currentCapital entryPrice,
        (fibLevelsWithBars env.recentRange dir (env.fillResult.getD entryPrice) conf).1,
        (fibLevelsWithBars env.recentRange dir (env.fillResult.getD entryPrice) conf).2⟩),
    rfl⟩

/-- Helper: capital after a successful close grows by
`shares * current_price * 0.1` computed from the cached price, whatever
the exit fill price was. -/
theorem close_position_ok_capital (env : BrokerEnv) (st : MgrState) (symbol : String)
    (pos : Position) (cp : ℚ) (o : Nat)
    (hpos : getPosition st symbol = some pos)
    (hcp : get_current_price env.priceCache symbol = some cp)
    (ho : env.submitResult = Except.ok o) :
    (close_position env st symbol).currentCapital
      = st.currentCapital + (pos.shares : ℚ) * cp * (1/10) := by
  unfold close_position
  rw [hpos, hcp, ho]

/-- C9: a successful `place_order` reduces capital by exactly
`shares * reference_entry_price * 0.1` (the pre-submission reference
price, for any fill outcome), a subsequent successful `close_position`
increases it by `shares * cached_price * 0.1` (the cached price at close
time, for any fill outcome), and the round trip restores the starting
capital exactly when the cached close-time price equals the entry
reference price. -/
theorem capital_round_trip
    (env1 env2 : BrokerEnv) (st : MgrState) (symbol : String) (dir : Direction)
    (entryPrice conf cp : ℚ) (o1 o2 : Nat)
    (h1 : env1.submitResult = Except.ok o1)
    (h2 : get_current_price env2.priceCache symbol = some cp)
    (h3 : env2.submitResult = Except.ok o2) :
    ((place_order env1 st symbol dir entryPrice conf).2.currentCapital
      = st.currentCapital
        - (calculate_position_size st.currentCapital entryPrice : ℚ) * entryPrice * (1/10)) ∧
    ((close_position env2 (place_order env1 st symbol dir entryPrice conf).2 symbol).currentCapital
      = (place_order env1 st symbol dir entryPrice conf).2.currentCapital
        + (calculate_position_size st.currentCapital entryPrice : ℚ) * cp * (1/10)) ∧
    ((close_position env2 (place_order env1 st symbol dir entryPrice conf).2 symbol).currentCapital
      = st.currentCapital ↔ cp = entryPrice) := by
  obtain ⟨pos, hpos, hshares⟩ :=
    place_order_ok_position env1 st symbol dir entryPrice conf o1 h1
  have hentry := place_order_ok_capital env1 st symbol dir entryPrice conf o1 h1
  have hclose :=
    close_position_ok_capital env2 (place_order env1 st symbol dir entryPrice conf).2
      symbol pos cp o2 hpos h2 h3
  rw [hshares] at hclose
  refine ⟨hentry, hclose, ?_⟩
  rw [hclose, hentry]
  have hs : (0:ℚ) < (calculate_position_size st.currentCapital entryPrice : ℚ) := by
    exact_mod_cast calculate_position_size_pos st.currentCapital entryPrice
  constructor
  · intro h
    have hmul : (calculate_position_size st.currentCapital entryPrice : ℚ) * cp
        = (calculate_position_size st.currentCapital entryPrice : ℚ) * entryPrice := by
      linarith
    exact mul_left_cancel₀ (ne_of_gt hs) hmul
  · intro h
    rw [h]
    ring

/-- C9 witness: entry at reference 100 (filled at 101) followed by a close
with cached price 50 moves capital 1000 → 990 → 995, and the round trip
does not restore capital because 50 is not 100. -/
theorem capital_round_trip_witness :
    ((place_order envEntry stFlat "AAPL" .buy 100 1).2.currentCapital
      = stFlat.currentCapital
        - (calculate_position_size stFlat.currentCapital 100 : ℚ) * 100 * (1/10)) ∧
    ((close_position envExit (place_order envEntry stFlat "AAPL" .buy 100 1).2 "AAPL").currentCapital
      = (place_order envEntry stFlat "AAPL" .buy 100 1).2.currentCapital
        + (calculate_position_size stFlat.currentCapital 100 : ℚ) * 50 * (1/10)) ∧
    ((close_position envExit (place_order envEntry stFlat "AAPL" .buy 100 1).2 "AAPL").currentCapital
      = stFlat.currentCapital ↔ (50:ℚ) = 100) :=
  capital_round_trip envEntry envExit stFlat "AAPL" .buy 100 1 50 1 2 rfl (by decide) rfl

/-- C10: `get_current_price` returns `None` when the cache has no entry
for the symbol and also when the cached value is zero or negative, and
returns the cached value otherwise; consequently `close_position` treats a
non-positive cached price exactly like an absent one and leaves the state
untouched. -/
theorem get_current_price_spec (cache : List (String × ℚ)) (symbol : String) :
    (cache.lookup symbol = Option.none → get_current_price cache symbol = Option.none) ∧
    (∀ p : ℚ, cache.lookup symbol = some p → p ≤ 0 →
      get_current_price cache symbol = Option.none) ∧
    (∀ p : ℚ, cache.lookup symbol = some p → 0 < p →
      get_current_price cache symbol = some p) ∧
    (∀ (env : BrokerEnv) (st : MgrState) (p : ℚ),
      env.priceCache.lookup symbol = some p → p ≤ 0 →
      close_position env st symbol = st) := by
  refine ⟨?_, ?_, ?_, ?_⟩
  · intro h
    unfold get_current_price
    rw [h]
  · intro p h hp
    unfold get_current_price
    rw [h]
    exact if_pos hp
  · intro p h hp
    unfold get_current_price
    rw [h]
    exact if_neg (not_le.mpr hp)
  · intro env st p h hp
    have hnone : get_current_price env.priceCache symbol = Option.none := by
      unfold get_current_price
      rw [h]
      exact if_pos hp
    unfold close_position
    cases hpos : getPosition st symbol with
    | none => rfl
    | some pos => rw [hnone]

/-- C10 witness: an absent entry, a negative cached value and a positive
cached value, plus a close against a negative cached price. -/
theorem get_current_price_spec_witness :
    get_current_price [] "MSFT" = Option.none ∧
    get_current_price [("MSFT", (-2:ℚ))] "MSFT" = Option.none ∧
    get_current_price [("MSFT", (75:ℚ))] "MSFT" = some 75 ∧
    close_position envStale2 stOpen2 "MSFT" = stOpen2 :=
  ⟨(get_current_price_spec [] "MSFT").1 rfl,
   (get_current_price_spec [("MSFT", (-2:ℚ))] "MSFT").2.1 (-2) rfl (by decide),
   (get_current_price_spec [("MSFT", (75:ℚ))] "MSFT").2.2.1 75 rfl (by decide),
   (get_current_price_spec [("MSFT", (-2:ℚ))] "MSFT").2.2.2 envStale2 stOpen2 (-2) rfl (by decide)⟩

end VisionLLM
